import Mathlib

/-!
Shallow embedding of the `tchap_red_list` Synapse module
(`tchap_red_list/__init__.py`).

The module maintains a database table `tchap_red_list(user_id PRIMARY KEY,
because_expired BOOLEAN)`, a per-user cache over `_get_user_status`, and
optionally mirrors hidden/visible transitions into a discovery room.

Embedding choices:
* the `tchap_red_list` table is an association list `List (UserId × Bool)`
  (row = `(user_id, because_expired)`); the primary-key constraint is the
  `NodupKeys` predicate, and `INSERT` fails on a duplicate key;
* the external `email_account_validity` table is `List (UserId × Nat)`
  (row = `(user_id, expiration_ts_ms)`);
* the `@cached()` decorator on `_get_user_status` is an explicit cache
  component `List (UserId × (Bool × Bool))` read through on miss and
  filtered by `invalidate`;
* discovery-room membership updates (`api.update_room_membership`) are
  recorded in an output list `calls`;
* database errors (duplicate primary key on INSERT, `simple_update_one_txn`
  finding no row) are `Except StoreError`;
* each Python method splits into a `*_txn` function (the database unit of
  work, exactly what runs inside `run_db_interaction`) and a top-level
  function that runs the txn and then performs the discovery-room side
  effect, mirroring the structure of the source.
-/

set_option autoImplicit false

namespace TchapRedList

abbrev UserId := String

/-- Rows of the `tchap_red_list` table: `(user_id, because_expired)`. -/
abbrev RedListTable := List (UserId × Bool)

/-- Rows of the external `email_account_validity` table:
`(user_id, expiration_ts_ms)`. -/
abbrev ValidityTable := List (UserId × Nat)

/-- `RedListManagerConfig` from the source: an optional discovery room and
the flag enabling the account-validity sweeps. -/
structure RedListManagerConfig where
  discovery_room : Option String
  use_email_account_validity : Bool
deriving DecidableEq, Repr

/-- `ACCOUNT_DATA_TYPE = "im.vector.hide_profile"`. -/
def ACCOUNT_DATA_TYPE : String := "im.vector.hide_profile"

/-- One call to `api.update_room_membership(sender, target, room_id,
new_membership)`. -/
structure MembershipCall where
  sender : UserId
  target : UserId
  room_id : String
  new_membership : String
deriving DecidableEq, Repr

/-- The state the module acts on: the `tchap_red_list` table, the cache on
`_get_user_status`, and the trace of discovery-room membership calls issued
so far. -/
structure ModuleState where
  redList : RedListTable
  cache : List (UserId × (Bool × Bool))
  calls : List MembershipCall
deriving DecidableEq, Repr

/-- Database errors surfaced by the storage helpers: a duplicate primary
key on `INSERT`, or `simple_update_one_txn` matching no row. -/
inductive StoreError where
  | duplicateKey
  | noRowUpdated
deriving DecidableEq, Repr

/-- `SELECT because_expired FROM tchap_red_list WHERE user_id = u`
(`simple_select_one_txn` with `allow_none=True`). -/
def lookupRow : RedListTable → UserId → Option Bool
  | [], _ => none
  | (v, be) :: rest, u => if v = u then some be else lookupRow rest u

/-- Cache lookup for the `@cached()` decorator on `_get_user_status`. -/
def cacheFind : List (UserId × (Bool × Bool)) → UserId → Option (Bool × Bool)
  | [], _ => none
  | (v, s) :: rest, u => if v = u then some s else cacheFind rest u

/-- `self._get_user_status.invalidate((u,))`: drop every cache entry for
`u`. -/
def invalidate : List (UserId × (Bool × Bool)) → UserId → List (UserId × (Bool × Bool))
  | [], _ => []
  | (v, s) :: rest, u => if v = u then invalidate rest u else (v, s) :: invalidate rest u

/-- `INSERT INTO tchap_red_list(user_id, because_expired) VALUES (?, ?)`:
fails on a duplicate primary key. -/
def insertRow (rl : RedListTable) (u : UserId) (be : Bool) : Except StoreError RedListTable :=
  if (lookupRow rl u).isSome then .error .duplicateKey
  else .ok (rl ++ [(u, be)])

/-- `DELETE FROM tchap_red_list WHERE user_id = ?`. -/
def deleteRows : RedListTable → UserId → RedListTable
  | [], _ => []
  | (v, be) :: rest, u => if v = u then deleteRows rest u else (v, be) :: deleteRows rest u

/-- `UPDATE tchap_red_list SET because_expired = b WHERE user_id = u`
(the write done by `simple_update_one_txn`). -/
def updateRows : RedListTable → UserId → Bool → RedListTable
  | [], _, _ => []
  | (v, be) :: rest, u, b =>
    if v = u then (v, b) :: updateRows rest u b else (v, be) :: updateRows rest u b

/-- The primary-key constraint on `tchap_red_list`: at most one row per
`user_id`. -/
def NodupKeys (rl : RedListTable) : Prop := (rl.map Prod.fst).Nodup

/-- The transaction inside `_get_user_status`: `(False, False)` when no row
exists, else `(True, because_expired)`. -/
def get_user_status_txn (rl : RedListTable) (u : UserId) : Bool × Bool :=
  match lookupRow rl u with
  | none => (false, false)
  | some be => (true, be)

/-- `_get_user_status` with its `@cached()` decorator: return the cached
pair on a hit, otherwise run the transaction and fill the cache. Returns
the pair together with the (possibly cache-extended) state. -/
def get_user_status (st : ModuleState) (u : UserId) : (Bool × Bool) × ModuleState :=
  match cacheFind st.cache u with
  | some s => (s, st)
  | none =>
      let v := get_user_status_txn st.redList u
      (v, { st with cache := (u, v) :: st.cache })

/-- `_maybe_change_membership_in_discovery_room`: no-op without a
configured discovery room, otherwise one `update_room_membership` call with
`sender = target = user_id`. -/
def maybe_change_membership_in_discovery_room (cfg : RedListManagerConfig)
    (st : ModuleState) (user_id : UserId) (membership : String) : ModuleState :=
  match cfg.discovery_room with
  | none => st
  | some room => { st with calls := st.calls ++ [⟨user_id, user_id, room, membership⟩] }

/-- The unit of work of `_add_to_red_list`: insert the row (duplicate key
propagates) and invalidate the cache entry, in one transaction. -/
def add_to_red_list_txn (st : ModuleState) (user_id : UserId) (because_expired : Bool) :
    Except StoreError ModuleState :=
  match insertRow st.redList user_id because_expired with
  | .error e => .error e
  | .ok rl => .ok { st with redList := rl, cache := invalidate st.cache user_id }

/-- `_add_to_red_list`: run the insert transaction, then make the user
leave the discovery room if one is configured. -/
def add_to_red_list (cfg : RedListManagerConfig) (st : ModuleState)
    (user_id : UserId) (because_expired : Bool) : Except StoreError ModuleState :=
  match add_to_red_list_txn st user_id because_expired with
  | .error e => .error e
  | .ok st1 => .ok (maybe_change_membership_in_discovery_room cfg st1 user_id "leave")

/-- The unit of work of `_remove_from_red_list`: delete the row and
invalidate the cache entry, in one transaction. -/
def remove_from_red_list_txn (st : ModuleState) (user_id : UserId) : ModuleState :=
  { st with redList := deleteRows st.redList user_id,
            cache := invalidate st.cache user_id }

/-- `_remove_from_red_list`: run the delete transaction, then make the
user join the discovery room if one is configured. -/
def remove_from_red_list (cfg : RedListManagerConfig) (st : ModuleState)
    (user_id : UserId) : ModuleState :=
  maybe_change_membership_in_discovery_room cfg (remove_from_red_list_txn st user_id)
    user_id "join"

/-- The unit of work of `_update_added_after_expiring`:
`simple_update_one_txn` setting `because_expired = False`, which raises
when no row matches, plus the cache invalidation. No discovery-room call is
made by this operation. -/
def update_added_after_expiring (st : ModuleState) (user_id : UserId) :
    Except StoreError ModuleState :=
  if (lookupRow st.redList user_id).isSome then
    .ok { st with redList := updateRows st.redList user_id false,
                  cache := invalidate st.cache user_id }
  else .error .noRowUpdated

/-- `update_red_list_status`, the `on_account_data_updated` callback.
`content` is the optional `hide_profile` field of the account-data content
(`bool(content.get("hide_profile"))` maps absence to `False`). -/
def update_red_list_status (cfg : RedListManagerConfig) (st : ModuleState)
    (user_id : UserId) (room_id : Option String) (account_data_type : String)
    (content : Option Bool) : Except StoreError ModuleState :=
  if account_data_type ≠ ACCOUNT_DATA_TYPE then .ok st
  else
    let desired_status := content.getD false
    let res := get_user_status st user_id
    let current_status := res.1.1
    let because_expired := res.1.2
    let st1 := res.2
    if current_status = desired_status ∧ because_expired = false then .ok st1
    else if because_expired = true then update_added_after_expiring st1 user_id
    else if desired_status = true then add_to_red_list cfg st1 user_id false
    else .ok (remove_from_red_list cfg st1 user_id)

/-- `check_user_in_red_list`, the `check_username_for_spam` callback:
the first component of the (cached) user status. -/
def check_user_in_red_list (st : ModuleState) (user_id : UserId) : Bool × ModuleState :=
  let res := get_user_status st user_id
  (res.1.1, res.2)

/-- One insert step of the loop in `add_expired_users_txn`: insert
`(user, True)` and invalidate the cache entry; an error aborts the
transaction. -/
def addExpiredStep (acc : Except StoreError ModuleState) (u : UserId) :
    Except StoreError ModuleState :=
  match acc with
  | .error e => .error e
  | .ok s =>
      match insertRow s.redList u true with
      | .error e => .error e
      | .ok rl => .ok { s with redList := rl, cache := invalidate s.cache u }

/-- `SELECT user_id FROM email_account_validity WHERE expiration_ts_ms <= ?`
in `add_expired_users_txn`. -/
def expiredUsers (validity : ValidityTable) (now_ms : Nat) : List UserId :=
  (validity.filter (fun r => decide (r.2 ≤ now_ms))).map Prod.fst

/-- `users_to_add` in `add_expired_users_txn`: the expired users, minus
those whose `user_id` already has a `tchap_red_list` row
(`users_in_red_list`). -/
def usersToAdd (rl : RedListTable) (validity : ValidityTable) (now_ms : Nat) :
    List UserId :=
  let expired_users := expiredUsers validity now_ms
  let users_in_red_list :=
    (rl.filter (fun r => decide (r.1 ∈ expired_users))).map Prod.fst
  expired_users.filter (fun u => decide (u ∉ users_in_red_list))

/-- The unit of work of `_add_expired_users`: select the users whose
`expiration_ts_ms <= now_ms`, keep those with no red-list row, insert each
with `because_expired = True` (invalidating its cache entry), and return
the list of added users. -/
def add_expired_users_txn (st : ModuleState) (validity : ValidityTable) (now_ms : Nat) :
    Except StoreError (ModuleState × List UserId) :=
  let users_to_add := usersToAdd st.redList validity now_ms
  match users_to_add.foldl addExpiredStep (.ok st) with
  | .error e => .error e
  | .ok s => .ok (s, users_to_add)

/-- `_add_expired_users`: run the sweep transaction, then make each newly
added user leave the discovery room if one is configured. -/
def add_expired_users (cfg : RedListManagerConfig) (st : ModuleState)
    (validity : ValidityTable) (now_ms : Nat) : Except StoreError ModuleState :=
  match add_expired_users_txn st validity now_ms with
  | .error e => .error e
  | .ok (s, users_added) =>
      .ok (users_added.foldl
        (fun s u => maybe_change_membership_in_discovery_room cfg s u "leave") s)

/-- The renewed users computed inside `remove_renewed_users_txn`: red-list
rows with `because_expired = True` whose account-validity row has
`expiration_ts_ms > now_ms`. -/
def renewedUsers (rl : RedListTable) (validity : ValidityTable) (now_ms : Nat) :
    List UserId :=
  let previously_expired_users := (rl.filter (fun r => r.2)).map Prod.fst
  let rows := validity.filter (fun r => decide (r.1 ∈ previously_expired_users))
  ((rows.filter (fun r => decide (now_ms < r.2))).map Prod.fst)

/-- The unit of work of `_remove_renewed_users`: delete every renewed
user's row (`simple_delete_many_txn`), invalidate each of their cache
entries, and return the list of removed users. -/
def remove_renewed_users_txn (st : ModuleState) (validity : ValidityTable) (now_ms : Nat) :
    ModuleState × List UserId :=
  let renewed_users := renewedUsers st.redList validity now_ms
  ({ st with redList := st.redList.filter (fun r => decide (r.1 ∉ renewed_users)),
             cache := renewed_users.foldl invalidate st.cache },
   renewed_users)

/-- `_remove_renewed_users`: run the sweep transaction, then make each
removed user join the discovery room if one is configured. -/
def remove_renewed_users (cfg : RedListManagerConfig) (st : ModuleState)
    (validity : ValidityTable) (now_ms : Nat) : ModuleState :=
  let res := remove_renewed_users_txn st validity now_ms
  res.2.foldl (fun s u => maybe_change_membership_in_discovery_room cfg s u "join") res.1

/-- The schema-level state `_setup_db` acts on: whether the
`tchap_red_list` table and the external `email_account_validity` table
exist. -/
structure DbSchema where
  red_list_table : Bool
  email_account_validity_table : Bool
deriving DecidableEq, Repr

/-- The error raised by `_setup_db`: `ConfigError` when
`use_email_account_validity` is set but the `email_account_validity` table
is missing. -/
inductive SetupError where
  | configError
deriving DecidableEq, Repr

/-- `_setup_db`: `CREATE TABLE IF NOT EXISTS tchap_red_list`, then, when
`use_email_account_validity` is set, probe the `email_account_validity`
table and raise `ConfigError` if it is absent (the failed transaction
leaves the schema unchanged). -/
def setup_db (cfg : RedListManagerConfig) (db : DbSchema) : Except SetupError DbSchema :=
  let db1 : DbSchema := { db with red_list_table := true }
  if cfg.use_email_account_validity ∧ db1.email_account_validity_table = false then
    .error .configError
  else .ok db1

/-- Cache coherence: every cached pair agrees with what the status
transaction would read from the current table. -/
def CacheCoherent (st : ModuleState) : Prop :=
  ∀ e ∈ st.cache, e.2 = get_user_status_txn st.redList e.1

/-! ### Association-list lemmas -/

theorem cacheFind_invalidate (c : List (UserId × (Bool × Bool))) (u v : UserId) :
    cacheFind (invalidate c v) u = if v = u then none else cacheFind c u := by
  induction c with
  | nil => simp [invalidate, cacheFind]
  | cons e rest ih =>
    obtain ⟨w, s⟩ := e
    by_cases hw : w = v <;> by_cases hvu : v = u <;>
      simp_all [invalidate, cacheFind]

theorem mem_invalidate {c : List (UserId × (Bool × Bool))} {v : UserId}
    {e : UserId × (Bool × Bool)} (h : e ∈ invalidate c v) : e ∈ c ∧ e.1 ≠ v := by
  induction c with
  | nil => simp [invalidate] at h
  | cons f rest ih =>
    obtain ⟨w, s⟩ := f
    by_cases hw : w = v
    · simp only [invalidate, if_pos hw] at h
      exact ⟨List.mem_cons_of_mem _ (ih h).1, (ih h).2⟩
    · simp only [invalidate, if_neg hw] at h
      rcases List.mem_cons.mp h with he | he
      · subst he
        exact ⟨List.mem_cons_self _ _, hw⟩
      · exact ⟨List.mem_cons_of_mem _ (ih he).1, (ih he).2⟩

theorem mem_of_cacheFind {c : List (UserId × (Bool × Bool))} {u : UserId}
    {s : Bool × Bool} (h : cacheFind c u = some s) : (u, s) ∈ c := by
  induction c with
  | nil => simp [cacheFind] at h
  | cons f rest ih =>
    obtain ⟨w, t⟩ := f
    by_cases hw : w = u <;> simp_all [cacheFind]

theorem lookupRow_deleteRows (rl : RedListTable) (u v : UserId) :
    lookupRow (deleteRows rl v) u = if v = u then none else lookupRow rl u := by
  induction rl with
  | nil => simp [deleteRows, lookupRow]
  | cons e rest ih =>
    obtain ⟨w, be⟩ := e
    by_cases hw : w = v <;> by_cases hvu : v = u <;>
      simp_all [deleteRows, lookupRow]

theorem lookupRow_updateRows (rl : RedListTable) (u v : UserId) (b : Bool) :
    lookupRow (updateRows rl v b) u =
      if v = u then (lookupRow rl u).map (fun _ => b) else lookupRow rl u := by
  induction rl with
  | nil => simp [updateRows, lookupRow]
  | cons e rest ih =>
    obtain ⟨w, be⟩ := e
    by_cases hw : w = v <;> by_cases hvu : v = u <;>
      simp_all [updateRows, lookupRow]

theorem lookupRow_append (rl l2 : RedListTable) (u : UserId) :
    lookupRow (rl ++ l2) u =
      match lookupRow rl u with
      | some b => some b
      | none => lookupRow l2 u := by
  induction rl with
  | nil => simp [lookupRow]
  | cons e rest ih =>
    obtain ⟨w, be⟩ := e
    by_cases hw : w = u
    · simp [lookupRow, hw]
    · simp [lookupRow, hw, ih]

theorem lookupRow_append_singleton_ne {u v : UserId} (rl : RedListTable) (b : Bool)
    (h : v ≠ u) : lookupRow (rl ++ [(u, b)]) v = lookupRow rl v := by
  have hne : ¬ u = v := fun hh => h hh.symm
  rw [lookupRow_append]
  cases hr : lookupRow rl v with
  | some c => rfl
  | none => simp [lookupRow, hne]

theorem lookupRow_isSome_iff {rl : RedListTable} {u : UserId} :
    (lookupRow rl u).isSome = true ↔ ∃ be, (u, be) ∈ rl := by
  induction rl with
  | nil => simp [lookupRow]
  | cons e rest ih =>
    obtain ⟨w, be⟩ := e
    by_cases hw : w = u
    · subst hw
      simp [lookupRow]
    · simp only [lookupRow, if_neg hw, ih, List.mem_cons]
      constructor
      · rintro ⟨b, hb⟩
        exact ⟨b, Or.inr hb⟩
      · rintro ⟨b, hb | hb⟩
        · exact absurd (congrArg Prod.fst hb).symm hw
        · exact ⟨b, hb⟩

theorem mem_of_lookupRow_eq_some {rl : RedListTable} {u : UserId} {be : Bool}
    (h : lookupRow rl u = some be) : (u, be) ∈ rl := by
  induction rl with
  | nil => simp [lookupRow] at h
  | cons e rest ih =>
    obtain ⟨w, b⟩ := e
    by_cases hw : w = u <;> simp_all [lookupRow]

theorem lookupRow_eq_some_of_nodup {rl : RedListTable} {u : UserId} {be : Bool}
    (hnd : NodupKeys rl) (h : (u, be) ∈ rl) : lookupRow rl u = some be := by
  induction rl with
  | nil => simp at h
  | cons e rest ih =>
    obtain ⟨w, b⟩ := e
    have hcons : (w :: rest.map Prod.fst).Nodup := hnd
    have hnd' : NodupKeys rest := (List.nodup_cons.mp hcons).2
    rcases List.mem_cons.mp h with he | he
    · cases he
      simp [lookupRow]
    · by_cases hw : w = u
      · subst hw
        have hmem : w ∈ rest.map Prod.fst := List.mem_map.mpr ⟨(w, be), he, rfl⟩
        exact absurd hmem (List.nodup_cons.mp hcons).1
      · simp only [lookupRow, if_neg hw]
        exact ih hnd' he

/-! ### The cached status read -/

theorem get_user_status_of_cacheFind_none {st : ModuleState} {u : UserId}
    (h : cacheFind st.cache u = none) :
    (get_user_status st u).1 = get_user_status_txn st.redList u := by
  simp [get_user_status, h]

theorem get_user_status_fst {st : ModuleState} {u : UserId} (h : CacheCoherent st) :
    (get_user_status st u).1 = get_user_status_txn st.redList u := by
  unfold get_user_status
  cases hc : cacheFind st.cache u with
  | none => simp
  | some s => exact h (u, s) (mem_of_cacheFind hc)

theorem get_user_status_snd_redList (st : ModuleState) (u : UserId) :
    (get_user_status st u).2.redList = st.redList := by
  unfold get_user_status
  cases cacheFind st.cache u <;> rfl

theorem get_user_status_snd_calls (st : ModuleState) (u : UserId) :
    (get_user_status st u).2.calls = st.calls := by
  unfold get_user_status
  cases cacheFind st.cache u <;> rfl

theorem coherent_get_user_status {st : ModuleState} (u : UserId) (h : CacheCoherent st) :
    CacheCoherent (get_user_status st u).2 := by
  unfold get_user_status
  cases hc : cacheFind st.cache u with
  | some s => exact h
  | none =>
      intro e he
      rcases List.mem_cons.mp he with he | he
      · subst he
        rfl
      · exact h e he

/-! ### Discovery-room membership calls -/

theorem maybe_change_membership_redList (cfg : RedListManagerConfig) (st : ModuleState)
    (u : UserId) (m : String) :
    (maybe_change_membership_in_discovery_room cfg st u m).redList = st.redList := by
  unfold maybe_change_membership_in_discovery_room
  cases cfg.discovery_room <;> rfl

theorem maybe_change_membership_cache (cfg : RedListManagerConfig) (st : ModuleState)
    (u : UserId) (m : String) :
    (maybe_change_membership_in_discovery_room cfg st u m).cache = st.cache := by
  unfold maybe_change_membership_in_discovery_room
  cases cfg.discovery_room <;> rfl

theorem maybe_change_membership_none {cfg : RedListManagerConfig}
    (h : cfg.discovery_room = none) (st : ModuleState) (u : UserId) (m : String) :
    maybe_change_membership_in_discovery_room cfg st u m = st := by
  simp [maybe_change_membership_in_discovery_room, h]

theorem maybe_change_membership_some {cfg : RedListManagerConfig} {room : String}
    (h : cfg.discovery_room = some room) (st : ModuleState) (u : UserId) (m : String) :
    maybe_change_membership_in_discovery_room cfg st u m =
      { st with calls := st.calls ++ [⟨u, u, room, m⟩] } := by
  simp [maybe_change_membership_in_discovery_room, h]

theorem coherent_maybe_change {cfg : RedListManagerConfig} {st : ModuleState}
    {u : UserId} {m : String} (h : CacheCoherent st) :
    CacheCoherent (maybe_change_membership_in_discovery_room cfg st u m) := by
  unfold maybe_change_membership_in_discovery_room
  cases cfg.discovery_room with
  | none => exact h
  | some room => exact h

theorem foldl_membership_none {cfg : RedListManagerConfig}
    (h : cfg.discovery_room = none) (us : List UserId) (st : ModuleState) (m : String) :
    us.foldl (fun s u => maybe_change_membership_in_discovery_room cfg s u m) st = st := by
  induction us generalizing st with
  | nil => rfl
  | cons v rest ih =>
      rw [List.foldl_cons, maybe_change_membership_none h, ih]

theorem foldl_membership_some {cfg : RedListManagerConfig} {room : String}
    (h : cfg.discovery_room = some room) (us : List UserId) (st : ModuleState) (m : String) :
    us.foldl (fun s u => maybe_change_membership_in_discovery_room cfg s u m) st =
      { st with calls := st.calls ++ us.map (fun u => ⟨u, u, room, m⟩) } := by
  induction us generalizing st with
  | nil => simp
  | cons v rest ih =>
      rw [List.foldl_cons, maybe_change_membership_some h, ih]
      simp

theorem foldl_membership_redList (cfg : RedListManagerConfig) (us : List UserId)
    (st : ModuleState) (m : String) :
    (us.foldl (fun s u => maybe_change_membership_in_discovery_room cfg s u m) st).redList
      = st.redList := by
  induction us generalizing st with
  | nil => rfl
  | cons v rest ih =>
      rw [List.foldl_cons, ih, maybe_change_membership_redList]

theorem foldl_membership_cache (cfg : RedListManagerConfig) (us : List UserId)
    (st : ModuleState) (m : String) :
    (us.foldl (fun s u => maybe_change_membership_in_discovery_room cfg s u m) st).cache
      = st.cache := by
  induction us generalizing st with
  | nil => rfl
  | cons v rest ih =>
      rw [List.foldl_cons, ih, maybe_change_membership_cache]

/-! ### Coherence is preserved by every write -/

theorem coherent_components {rl rl' : RedListTable} {c : List (UserId × (Bool × Bool))}
    {u : UserId} (h : ∀ e ∈ c, e.2 = get_user_status_txn rl e.1)
    (hagree : ∀ v, v ≠ u → lookupRow rl' v = lookupRow rl v) :
    ∀ e ∈ invalidate c u, e.2 = get_user_status_txn rl' e.1 := by
  intro e he
  obtain ⟨hec, hne⟩ := mem_invalidate he
  rw [h e hec]
  unfold get_user_status_txn
  rw [hagree e.1 hne]

theorem add_to_red_list_txn_ok_iff {st : ModuleState} {u : UserId} {be : Bool}
    {st1 : ModuleState} :
    add_to_red_list_txn st u be = .ok st1 ↔
      lookupRow st.redList u = none ∧
      st1 = { st with redList := st.redList ++ [(u, be)],
                      cache := invalidate st.cache u } := by
  unfold add_to_red_list_txn insertRow
  cases hl : lookupRow st.redList u <;> simp [hl, eq_comm]

theorem update_added_after_expiring_ok_iff {st : ModuleState} {u : UserId}
    {st1 : ModuleState} :
    update_added_after_expiring st u = .ok st1 ↔
      (lookupRow st.redList u).isSome = true ∧
      st1 = { st with redList := updateRows st.redList u false,
                      cache := invalidate st.cache u } := by
  unfold update_added_after_expiring
  by_cases hl : (lookupRow st.redList u).isSome <;> simp [hl, eq_comm]

theorem coherent_add_txn {st : ModuleState} {u : UserId} {be : Bool} {st1 : ModuleState}
    (h : CacheCoherent st) (hok : add_to_red_list_txn st u be = .ok st1) :
    CacheCoherent st1 := by
  obtain ⟨hl, rfl⟩ := add_to_red_list_txn_ok_iff.mp hok
  intro e he
  exact coherent_components h (fun v hv => lookupRow_append_singleton_ne _ _ hv) e he

theorem coherent_remove_txn {st : ModuleState} {u : UserId} (h : CacheCoherent st) :
    CacheCoherent (remove_from_red_list_txn st u) := by
  unfold remove_from_red_list_txn
  intro e he
  refine coherent_components h (fun v hv => ?_) e he
  rw [lookupRow_deleteRows, if_neg (fun hh => hv hh.symm)]

theorem coherent_update_txn {st : ModuleState} {u : UserId} {st1 : ModuleState}
    (h : CacheCoherent st) (hok : update_added_after_expiring st u = .ok st1) :
    CacheCoherent st1 := by
  obtain ⟨hl, rfl⟩ := update_added_after_expiring_ok_iff.mp hok
  intro e he
  refine coherent_components h (fun v hv => ?_) e he
  rw [lookupRow_updateRows, if_neg (fun hh => hv hh.symm)]

/-! ### The expiry sweep -/

theorem insertRow_ok_iff {rl : RedListTable} {u : UserId} {be : Bool} {rl' : RedListTable} :
    insertRow rl u be = .ok rl' ↔ lookupRow rl u = none ∧ rl' = rl ++ [(u, be)] := by
  unfold insertRow
  cases h : lookupRow rl u <;> simp [h, eq_comm]

theorem foldl_addExpiredStep_error (us : List UserId) (e : StoreError) :
    us.foldl addExpiredStep (.error e) = .error e := by
  induction us with
  | nil => rfl
  | cons v rest ih =>
      rw [List.foldl_cons]
      exact ih

theorem foldl_addExpiredStep_ok {us : List UserId} {s s' : ModuleState}
    (h : us.foldl addExpiredStep (.ok s) = .ok s') :
    s'.calls = s.calls ∧
    (∀ u, cacheFind s.cache u = none → cacheFind s'.cache u = none) ∧
    (∀ u, (lookupRow s.redList u).isSome = true → (lookupRow s'.redList u).isSome = true) ∧
    (∀ u ∈ us, (lookupRow s'.redList u).isSome = true) ∧
    (∀ u ∈ us, cacheFind s'.cache u = none) ∧
    (∀ r ∈ s.redList, r ∈ s'.redList) := by
  induction us generalizing s with
  | nil =>
      obtain rfl := Except.ok.inj h
      exact ⟨rfl, fun u hu => hu, fun u hu => hu, by simp, by simp, fun r hr => hr⟩
  | cons v rest ih =>
      rw [List.foldl_cons] at h
      cases hins : insertRow s.redList v true with
      | error e =>
          rw [show addExpiredStep (.ok s) v = .error e by
                simp [addExpiredStep, hins]] at h
          rw [foldl_addExpiredStep_error] at h
          cases h
      | ok rl =>
          obtain ⟨hnone, rfl⟩ := insertRow_ok_iff.mp hins
          rw [show addExpiredStep (.ok s) v =
                .ok { s with redList := s.redList ++ [(v, true)],
                             cache := invalidate s.cache v } by
                simp [addExpiredStep, hins]] at h
          obtain ⟨hcalls, hcache, hlook, hmem, hcmem, hrows⟩ := ih h
          refine ⟨hcalls, ?_, ?_, ?_, ?_, ?_⟩
          · intro u hu
            refine hcache u ?_
            show cacheFind (invalidate s.cache v) u = none
            rw [cacheFind_invalidate]
            by_cases hv : v = u <;> simp [hv, hu]
          · intro u hu
            refine hlook u ?_
            rw [Option.isSome_iff_exists] at hu
            obtain ⟨b, hb⟩ := hu
            show (lookupRow (s.redList ++ [(v, true)]) u).isSome = true
            rw [lookupRow_append, hb]
            rfl
          · intro u hu
            rcases List.mem_cons.mp hu with rfl | hu
            · refine hlook u ?_
              show (lookupRow (s.redList ++ [(u, true)]) u).isSome = true
              rw [lookupRow_append, hnone]
              simp [lookupRow]
            · exact hmem u hu
          · intro u hu
            rcases List.mem_cons.mp hu with rfl | hu
            · refine hcache u ?_
              show cacheFind (invalidate s.cache u) u = none
              rw [cacheFind_invalidate]
              simp
            · exact hcmem u hu
          · intro r hr
            exact hrows r (List.mem_append_left _ hr)

theorem add_expired_users_txn_ok_iff {st : ModuleState} {validity : ValidityTable}
    {now_ms : Nat} {s : ModuleState} {added : List UserId} :
    add_expired_users_txn st validity now_ms = .ok (s, added) ↔
      added = usersToAdd st.redList validity now_ms ∧
      (usersToAdd st.redList validity now_ms).foldl addExpiredStep (.ok st) = .ok s := by
  unfold add_expired_users_txn
  cases hf : (usersToAdd st.redList validity now_ms).foldl addExpiredStep (.ok st) with
  | error e => simp [hf]
  | ok s0 => simp [hf, eq_comm, and_comm]

theorem usersToAdd_eq_nil {rl : RedListTable} {validity : ValidityTable} {now_ms : Nat}
    (h : ∀ u ∈ expiredUsers validity now_ms, (lookupRow rl u).isSome = true) :
    usersToAdd rl validity now_ms = [] := by
  unfold usersToAdd
  rw [List.filter_eq_nil_iff]
  intro u hu
  simp only [decide_eq_true_eq, not_not]
  obtain ⟨be, hbe⟩ := lookupRow_isSome_iff.mp (h u hu)
  exact List.mem_map.mpr ⟨(u, be), List.mem_filter.mpr ⟨hbe, by simp [hu]⟩, rfl⟩

theorem expired_have_rows_after {st : ModuleState} {validity : ValidityTable}
    {now_ms : Nat} {s : ModuleState} {added : List UserId}
    (h : add_expired_users_txn st validity now_ms = .ok (s, added)) :
    ∀ u ∈ expiredUsers validity now_ms, (lookupRow s.redList u).isSome = true := by
  obtain ⟨rfl, hf⟩ := add_expired_users_txn_ok_iff.mp h
  obtain ⟨_, _, hlook, hmem, _, _⟩ := foldl_addExpiredStep_ok hf
  intro u hu
  by_cases hin : u ∈ usersToAdd st.redList validity now_ms
  · exact hmem u hin
  · refine hlook u ?_
    unfold usersToAdd at hin
    simp only [List.mem_filter, decide_eq_true_eq, not_and, not_not] at hin
    obtain ⟨r, hr, hru⟩ := List.mem_map.mp (hin hu)
    rw [lookupRow_isSome_iff]
    exact ⟨r.2, by rw [← hru]; exact (Prod.mk.eta ▸ (List.mem_filter.mp hr).1)⟩

/-! ### The renewal sweep -/

theorem mem_renewedUsers {rl : RedListTable} {validity : ValidityTable} {now_ms : Nat}
    {u : UserId} :
    u ∈ renewedUsers rl validity now_ms ↔
      (u, true) ∈ rl ∧ ∃ ts, (u, ts) ∈ validity ∧ now_ms < ts := by
  unfold renewedUsers
  simp only [List.mem_map, List.mem_filter, decide_eq_true_eq]
  constructor
  · rintro ⟨⟨v, ts⟩, ⟨⟨hval, ⟨⟨w1, w2⟩, ⟨hwrl, hw2⟩, hwv⟩⟩, hts⟩, rfl⟩
    have hw1 : w1 = v := hwv
    have hw2' : w2 = true := hw2
    subst hw1
    subst hw2'
    exact ⟨hwrl, ts, hval, hts⟩
  · rintro ⟨hmem, ts, hval, hts⟩
    exact ⟨(u, ts), ⟨⟨hval, ⟨(u, true), ⟨hmem, rfl⟩, rfl⟩⟩, hts⟩, rfl⟩

theorem renewedUsers_nodup {rl : RedListTable} {validity : ValidityTable} {now_ms : Nat}
    (h : (validity.map Prod.fst).Nodup) :
    (renewedUsers rl validity now_ms).Nodup := by
  unfold renewedUsers
  refine List.Nodup.sublist ?_ h
  exact List.Sublist.map _ ((List.filter_sublist _).trans (List.filter_sublist _))

theorem cacheFind_foldl_invalidate_none {c : List (UserId × (Bool × Bool))}
    {us : List UserId} {u : UserId} (h : cacheFind c u = none) :
    cacheFind (us.foldl invalidate c) u = none := by
  induction us generalizing c with
  | nil => exact h
  | cons v rest ih =>
      rw [List.foldl_cons]
      refine ih ?_
      rw [cacheFind_invalidate]
      by_cases hv : v = u <;> simp [hv, h]

theorem cacheFind_foldl_invalidate_mem {c : List (UserId × (Bool × Bool))}
    {us : List UserId} {u : UserId} (h : u ∈ us) :
    cacheFind (us.foldl invalidate c) u = none := by
  induction us generalizing c with
  | nil => cases h
  | cons v rest ih =>
      rw [List.foldl_cons]
      rcases List.mem_cons.mp h with rfl | h
      · refine cacheFind_foldl_invalidate_none ?_
        rw [cacheFind_invalidate]
        simp
      · exact ih h

theorem mem_remove_renewed_txn_redList {st : ModuleState} {validity : ValidityTable}
    {now_ms : Nat} {u : UserId} {be : Bool} :
    (u, be) ∈ (remove_renewed_users_txn st validity now_ms).1.redList ↔
      (u, be) ∈ st.redList ∧ u ∉ renewedUsers st.redList validity now_ms := by
  simp [remove_renewed_users_txn, List.mem_filter]

theorem remove_renewed_users_def (cfg : RedListManagerConfig) (st : ModuleState)
    (validity : ValidityTable) (now_ms : Nat) :
    remove_renewed_users cfg st validity now_ms =
      (renewedUsers st.redList validity now_ms).foldl
        (fun s u => maybe_change_membership_in_discovery_room cfg s u "join")
        (remove_renewed_users_txn st validity now_ms).1 := rfl

/-! ### Running the account-data callback -/

theorem add_to_red_list_ok_iff {cfg : RedListManagerConfig} {st : ModuleState}
    {u : UserId} {be : Bool} {st1 : ModuleState} :
    add_to_red_list cfg st u be = .ok st1 ↔
      ∃ st0, add_to_red_list_txn st u be = .ok st0 ∧
        st1 = maybe_change_membership_in_discovery_room cfg st0 u "leave" := by
  unfold add_to_red_list
  cases htxn : add_to_red_list_txn st u be <;> simp [htxn, eq_comm]

theorem update_red_list_status_run {cfg : RedListManagerConfig} {st : ModuleState}
    {u : UserId} {room : Option String} {content : Option Bool} (h : CacheCoherent st) :
    update_red_list_status cfg st u room ACCOUNT_DATA_TYPE content =
      (if (get_user_status_txn st.redList u).1 = content.getD false ∧
          (get_user_status_txn st.redList u).2 = false then
        .ok (get_user_status st u).2
      else if (get_user_status_txn st.redList u).2 = true then
        update_added_after_expiring (get_user_status st u).2 u
      else if content.getD false = true then
        add_to_red_list cfg (get_user_status st u).2 u false
      else .ok (remove_from_red_list cfg (get_user_status st u).2 u)) := by
  simp only [update_red_list_status]
  rw [if_neg (by simp : ¬ ACCOUNT_DATA_TYPE ≠ ACCOUNT_DATA_TYPE),
    get_user_status_fst h]

theorem coherent_update_red_list_status {cfg : RedListManagerConfig} {st : ModuleState}
    {u : UserId} {room : Option String} {t : String} {content : Option Bool}
    {st1 : ModuleState} (h : CacheCoherent st)
    (hok : update_red_list_status cfg st u room t content = .ok st1) :
    CacheCoherent st1 := by
  by_cases ht : t = ACCOUNT_DATA_TYPE
  · subst ht
    rw [update_red_list_status_run h] at hok
    have hco := coherent_get_user_status u h
    split at hok
    · obtain rfl := Except.ok.inj hok
      exact hco
    · split at hok
      · exact coherent_update_txn hco hok
      · split at hok
        · obtain ⟨st0, htxn, rfl⟩ := add_to_red_list_ok_iff.mp hok
          exact coherent_maybe_change (coherent_add_txn hco htxn)
        · obtain rfl := Except.ok.inj hok
          exact coherent_maybe_change (coherent_remove_txn hco)
  · unfold update_red_list_status at hok
    rw [if_pos ht] at hok
    obtain rfl := Except.ok.inj hok
    exact h

/-! ### Claims -/

/-- C6: on a coherent state, `_get_user_status` returns `in_list = true`
iff a `tchap_red_list` row exists for the user, it returns
`because_expired = false` whenever `in_list` is `false` (so `(false, true)`
is never returned), and `check_user_in_red_list` returns exactly the
`in_list` component of that status. -/
theorem status_iff_row (st : ModuleState) (u : UserId) (h : CacheCoherent st) :
    ((get_user_status st u).1.1 = true ↔ ∃ be, (u, be) ∈ st.redList) ∧
    ((get_user_status st u).1.1 = false → (get_user_status st u).1.2 = false) ∧
    (check_user_in_red_list st u).1 = (get_user_status st u).1.1 := by
  have hread : (get_user_status st u).1 = get_user_status_txn st.redList u :=
    get_user_status_fst h
  refine ⟨?_, ?_, rfl⟩
  · rw [hread]
    constructor
    · intro htrue
      refine lookupRow_isSome_iff.mp ?_
      unfold get_user_status_txn at htrue
      cases hl : lookupRow st.redList u
      · rw [hl] at htrue
        cases htrue
      · simp [hl]
    · rintro ⟨be, hbe⟩
      have hsome : (lookupRow st.redList u).isSome = true :=
        lookupRow_isSome_iff.mpr ⟨be, hbe⟩
      unfold get_user_status_txn
      cases hl : lookupRow st.redList u
      · rw [hl] at hsome
        cases hsome
      · rfl
  · rw [hread]
    unfold get_user_status_txn
    cases hl : lookupRow st.redList u
    · intro hfalse
      rfl
    · intro hfalse
      cases hfalse

/-- Witness for `status_iff_row` at a concrete coherent state holding one
manual entry. -/
theorem status_iff_row_witness :
    CacheCoherent ⟨[("@alice:tchap", false)], [], []⟩ ∧
    (((get_user_status ⟨[("@alice:tchap", false)], [], []⟩ "@alice:tchap").1.1 = true ↔
        ∃ be, ("@alice:tchap", be) ∈ ([("@alice:tchap", false)] : RedListTable)) ∧
      ((get_user_status ⟨[("@alice:tchap", false)], [], []⟩ "@alice:tchap").1.1 = false →
        (get_user_status ⟨[("@alice:tchap", false)], [], []⟩ "@alice:tchap").1.2 = false) ∧
      (check_user_in_red_list ⟨[("@alice:tchap", false)], [], []⟩ "@alice:tchap").1 =
        (get_user_status ⟨[("@alice:tchap", false)], [], []⟩ "@alice:tchap").1.1) :=
  ⟨fun e he => absurd he (List.not_mem_nil e),
   status_iff_row ⟨[("@alice:tchap", false)], [], []⟩ "@alice:tchap"
     (fun e he => absurd he (List.not_mem_nil e))⟩

/-- C7: adding a user who already has a red-list row fails loudly: the
insert hits the duplicate primary key, the transaction returns the error,
and `_add_to_red_list` propagates it to the caller (no retry, no upsert). -/
theorem duplicate_add_fails (cfg : RedListManagerConfig) (st : ModuleState)
    (u : UserId) (be be0 : Bool) (h : lookupRow st.redList u = some be0) :
    add_to_red_list cfg st u be = .error .duplicateKey ∧
    add_to_red_list_txn st u be = .error .duplicateKey := by
  have htxn : add_to_red_list_txn st u be = .error .duplicateKey := by
    simp [add_to_red_list_txn, insertRow, h]
  refine ⟨?_, htxn⟩
  unfold add_to_red_list
  rw [htxn]

/-- Witness for `duplicate_add_fails`: re-adding the sole entry errors. -/
theorem duplicate_add_fails_witness :
    add_to_red_list ⟨some "!room:tchap", false⟩ ⟨[("@alice:tchap", false)], [], []⟩
        "@alice:tchap" false = .error .duplicateKey ∧
    add_to_red_list_txn ⟨[("@alice:tchap", false)], [], []⟩ "@alice:tchap" false =
      .error .duplicateKey :=
  duplicate_add_fails ⟨some "!room:tchap", false⟩ ⟨[("@alice:tchap", false)], [], []⟩
    "@alice:tchap" false false (by rfl)

/-- C8: `_setup_db` is idempotent (`CREATE TABLE IF NOT EXISTS`), raises a
configuration error exactly when `use_email_account_validity` is set and
the external `email_account_validity` table is absent, and on success the
`tchap_red_list` table exists. -/
theorem setup_db_spec (cfg : RedListManagerConfig) (db : DbSchema) :
    (∀ db', setup_db cfg db = .ok db' → setup_db cfg db' = .ok db') ∧
    (setup_db cfg db = .error .configError ↔
      cfg.use_email_account_validity = true ∧ db.email_account_validity_table = false) ∧
    (∀ db', setup_db cfg db = .ok db' → db'.red_list_table = true) := by
  unfold setup_db
  by_cases hc : cfg.use_email_account_validity = true ∧
      db.email_account_validity_table = false
  · rw [if_pos hc]
    refine ⟨?_, ?_, ?_⟩
    · intro db' hdb
      cases hdb
    · simp [hc]
    · intro db' hdb
      cases hdb
  · rw [if_neg hc]
    refine ⟨?_, ?_, ?_⟩
    · intro db' hdb
      obtain rfl := Except.ok.inj hdb
      rw [if_neg (by simpa using hc)]
    · simp [hc]
    · intro db' hdb
      obtain rfl := Except.ok.inj hdb
      rfl

/-- Witness for `setup_db_spec`: a second setup run on the schema produced
by a successful first run succeeds and changes nothing. -/
theorem setup_db_spec_witness :
    setup_db ⟨none, true⟩ ⟨true, true⟩ = .ok ⟨true, true⟩ :=
  (setup_db_spec ⟨none, true⟩ ⟨false, true⟩).1 ⟨true, true⟩ (by rfl)

/-- C1: for a user in state `HIDDEN_EXPIRED` (row with
`because_expired = true`), any `im.vector.hide_profile` account-data update
— whatever the `hide_profile` field says, or even if it is absent — ends
with the row retained and `because_expired = false` (`HIDDEN_MANUAL`), and
issues no discovery-room membership call. -/
theorem expired_user_update_reclassifies (cfg : RedListManagerConfig)
    (st : ModuleState) (u : UserId) (room : Option String) (content : Option Bool)
    (hcoh : CacheCoherent st) (hu : lookupRow st.redList u = some true) :
    ∃ st', update_red_list_status cfg st u room ACCOUNT_DATA_TYPE content = .ok st' ∧
      lookupRow st'.redList u = some false ∧ st'.calls = st.calls := by
  rw [update_red_list_status_run hcoh]
  have htxn : get_user_status_txn st.redList u = (true, true) := by
    unfold get_user_status_txn
    rw [hu]
  rw [htxn, if_neg (by simp), if_pos rfl]
  have hrl : (get_user_status st u).2.redList = st.redList :=
    get_user_status_snd_redList st u
  have hl2 : lookupRow (get_user_status st u).2.redList u = some true := by
    rw [hrl]
    exact hu
  refine ⟨_, update_added_after_expiring_ok_iff.mpr ⟨by rw [hl2]; rfl, rfl⟩, ?_, ?_⟩
  · show lookupRow (updateRows (get_user_status st u).2.redList u false) u = some false
    rw [lookupRow_updateRows, if_pos rfl, hl2]
    rfl
  · show (get_user_status st u).2.calls = st.calls
    exact get_user_status_snd_calls st u

/-- Witness for `expired_user_update_reclassifies`: an expired-hidden user
sending `hide_profile: false` keeps their entry, now manual. -/
theorem expired_user_update_reclassifies_witness :
    CacheCoherent ⟨[("@alice:tchap", true)], [], []⟩ ∧
    lookupRow ([("@alice:tchap", true)] : RedListTable) "@alice:tchap" = some true ∧
    ∃ st', update_red_list_status ⟨some "!room:tchap", true⟩
        ⟨[("@alice:tchap", true)], [], []⟩ "@alice:tchap" none ACCOUNT_DATA_TYPE
        (some false) = .ok st' ∧
      lookupRow st'.redList "@alice:tchap" = some false ∧
      st'.calls = (⟨[("@alice:tchap", true)], [], []⟩ : ModuleState).calls :=
  ⟨fun e he => absurd he (List.not_mem_nil e), by rfl,
   expired_user_update_reclassifies ⟨some "!room:tchap", true⟩
     ⟨[("@alice:tchap", true)], [], []⟩ "@alice:tchap" none (some false)
     (fun e he => absurd he (List.not_mem_nil e)) (by rfl)⟩

/-- C3: one run of `_remove_renewed_users` deletes exactly the rows with
`because_expired = true` whose user has an `email_account_validity` row
with a strictly future timestamp, issues exactly one discovery-room "join"
per removed user, and never touches a `because_expired = false` row. -/
theorem renewal_sweep_removes_exactly_renewed (cfg : RedListManagerConfig)
    (st : ModuleState) (validity : ValidityTable) (now_ms : Nat) (room : String)
    (hnd : NodupKeys st.redList) (hvnd : (validity.map Prod.fst).Nodup)
    (hroom : cfg.discovery_room = some room) :
    (∀ u be, (u, be) ∈ (remove_renewed_users cfg st validity now_ms).redList ↔
      ((u, be) ∈ st.redList ∧
        ¬(be = true ∧ ∃ ts, (u, ts) ∈ validity ∧ now_ms < ts))) ∧
    (remove_renewed_users cfg st validity now_ms).calls =
      st.calls ++ (renewedUsers st.redList validity now_ms).map
        (fun u => ⟨u, u, room, "join"⟩) ∧
    (renewedUsers st.redList validity now_ms).Nodup ∧
    (∀ u, (u, false) ∈ st.redList →
      (u, false) ∈ (remove_renewed_users cfg st validity now_ms).redList) ∧
    (∀ s added, add_expired_users_txn st validity now_ms = .ok (s, added) →
      ∀ u, (u, false) ∈ st.redList → (u, false) ∈ s.redList) := by
  have hrl : (remove_renewed_users cfg st validity now_ms).redList =
      (remove_renewed_users_txn st validity now_ms).1.redList := by
    rw [remove_renewed_users_def]
    exact foldl_membership_redList cfg _ _ "join"
  have hiff : ∀ u be, (u, be) ∈ (remove_renewed_users cfg st validity now_ms).redList ↔
      ((u, be) ∈ st.redList ∧
        ¬(be = true ∧ ∃ ts, (u, ts) ∈ validity ∧ now_ms < ts)) := by
    intro u be
    rw [hrl, mem_remove_renewed_txn_redList]
    constructor
    · rintro ⟨hmem, hren⟩
      refine ⟨hmem, ?_⟩
      rintro ⟨rfl, ts, hts, hlt⟩
      exact hren (mem_renewedUsers.mpr ⟨hmem, ts, hts, hlt⟩)
    · rintro ⟨hmem, hnren⟩
      refine ⟨hmem, fun hren => ?_⟩
      obtain ⟨htrue, ts, hts, hlt⟩ := mem_renewedUsers.mp hren
      have hbe : some be = some true := by
        rw [← lookupRow_eq_some_of_nodup hnd hmem, ← lookupRow_eq_some_of_nodup hnd htrue]
      exact hnren ⟨Option.some.inj hbe, ts, hts, hlt⟩
  refine ⟨hiff, ?_, renewedUsers_nodup hvnd, ?_, ?_⟩
  · rw [remove_renewed_users_def, foldl_membership_some hroom]
    rfl
  · intro u hmem
    exact (hiff u false).mpr ⟨hmem, by simp⟩
  · intro s added htxn u hmem
    obtain ⟨-, hf⟩ := add_expired_users_txn_ok_iff.mp htxn
    obtain ⟨-, -, -, -, -, hrows⟩ := foldl_addExpiredStep_ok hf
    exact hrows (u, false) hmem

/-- Witness for `renewal_sweep_removes_exactly_renewed`: a state with one
renewed expired entry, one stale expired entry and one manual entry. -/
theorem renewal_sweep_removes_exactly_renewed_witness :
    NodupKeys ([("@a:t", true), ("@b:t", false), ("@c:t", true)] : RedListTable) ∧
    ∃ st', remove_renewed_users ⟨some "!room:tchap", true⟩
        ⟨[("@a:t", true), ("@b:t", false), ("@c:t", true)], [], []⟩
        [("@a:t", 900), ("@b:t", 900), ("@c:t", 100)] 500 = st' ∧
      (("@a:t", true) ∉ st'.redList ∧ ("@b:t", false) ∈ st'.redList ∧
        ("@c:t", true) ∈ st'.redList) ∧
      st'.calls = [⟨"@a:t", "@a:t", "!room:tchap", "join"⟩] ∧
      ("@b:t", false) ∈ (⟨[("@a:t", true), ("@b:t", false), ("@c:t", true)], [], []⟩ :
        ModuleState).redList := by
  have hnd : NodupKeys ([("@a:t", true), ("@b:t", false), ("@c:t", true)] : RedListTable) := by
    unfold NodupKeys
    decide
  have h := renewal_sweep_removes_exactly_renewed ⟨some "!room:tchap", true⟩
    ⟨[("@a:t", true), ("@b:t", false), ("@c:t", true)], [], []⟩
    [("@a:t", 900), ("@b:t", 900), ("@c:t", 100)] 500 "!room:tchap"
    hnd (by decide) rfl
  refine ⟨hnd, _, rfl, ⟨?_, ?_, ?_⟩, ?_, ?_⟩
  · intro hmem
    have := (h.1 "@a:t" true).mp hmem
    exact this.2 ⟨rfl, 900, by decide, by decide⟩
  · exact (h.1 "@b:t" false).mpr ⟨by decide, by simp⟩
  · refine (h.1 "@c:t" true).mpr ⟨by decide, ?_⟩
    rintro ⟨-, ts, hts, hlt⟩
    simp at hts
    omega
  · have := h.2.1
    rw [this]
    rfl
  · exact h.2.2.2.2 ⟨[("@a:t", true), ("@b:t", false), ("@c:t", true)], [], []⟩ []
      (by rfl) "@b:t" (by decide)

/-- C10 (implicit): a `because_expired = true` entry whose user has no row
at all in `email_account_validity` is never selected as renewed, so the
renewal sweep leaves it in place. -/
theorem stranded_expired_entry_never_removed (cfg : RedListManagerConfig)
    (st : ModuleState) (validity : ValidityTable) (now_ms : Nat) (u : UserId)
    (hmem : (u, true) ∈ st.redList) (hnorow : ∀ ts, (u, ts) ∉ validity) :
    (u, true) ∈ (remove_renewed_users cfg st validity now_ms).redList := by
  have hrl : (remove_renewed_users cfg st validity now_ms).redList =
      (remove_renewed_users_txn st validity now_ms).1.redList := by
    rw [remove_renewed_users_def]
    exact foldl_membership_redList cfg _ _ "join"
  rw [hrl, mem_remove_renewed_txn_redList]
  refine ⟨hmem, fun hren => ?_⟩
  obtain ⟨-, ts, hts, -⟩ := mem_renewedUsers.mp hren
  exact hnorow ts hts

/-- Witness for `stranded_expired_entry_never_removed`: an expired-hidden
user absent from the validity table survives the sweep. -/
theorem stranded_expired_entry_never_removed_witness :
    ("@a:t", true) ∈ (⟨[("@a:t", true)], [], []⟩ : ModuleState).redList ∧
    ("@a:t", true) ∈ (remove_renewed_users ⟨some "!room:tchap", true⟩
      ⟨[("@a:t", true)], [], []⟩ [("@b:t", 900)] 500).redList :=
  ⟨by decide,
   stranded_expired_entry_never_removed ⟨some "!room:tchap", true⟩
     ⟨[("@a:t", true)], [], []⟩ [("@b:t", 900)] 500 "@a:t" (by decide)
     (fun ts h => by simp at h)⟩

/-- C4: running `_add_expired_users` a second time with the same
account-validity table and the same clock is a complete no-op: the second
transaction filters every expired user out (they all have rows by then),
inserts nothing, raises no duplicate-key error, and issues no second
discovery-room "leave". -/
theorem expiry_sweep_idempotent (cfg : RedListManagerConfig) (st : ModuleState)
    (validity : ValidityTable) (now_ms : Nat) (st1 : ModuleState)
    (h : add_expired_users cfg st validity now_ms = .ok st1) :
    add_expired_users cfg st1 validity now_ms = .ok st1 ∧
    add_expired_users_txn st1 validity now_ms = .ok (st1, []) := by
  unfold add_expired_users at h
  cases htxn : add_expired_users_txn st validity now_ms with
  | error e =>
      rw [htxn] at h
      cases h
  | ok p =>
      obtain ⟨s, added⟩ := p
      rw [htxn] at h
      obtain rfl := Except.ok.inj h
      have hrl : (added.foldl
          (fun s u => maybe_change_membership_in_discovery_room cfg s u "leave")
          s).redList = s.redList := foldl_membership_redList cfg added s "leave"
      have hexp : ∀ u ∈ expiredUsers validity now_ms,
          (lookupRow (added.foldl
            (fun s u => maybe_change_membership_in_discovery_room cfg s u "leave")
            s).redList u).isSome = true := by
        rw [hrl]
        exact expired_have_rows_after htxn
      have hnil := usersToAdd_eq_nil hexp
      have htxn2 : add_expired_users_txn (added.foldl
          (fun s u => maybe_change_membership_in_discovery_room cfg s u "leave") s)
          validity now_ms = .ok (added.foldl
          (fun s u => maybe_change_membership_in_discovery_room cfg s u "leave") s, []) := by
        unfold add_expired_users_txn
        rw [hnil]
        rfl
      refine ⟨?_, htxn2⟩
      unfold add_expired_users
      rw [htxn2]
      rfl

/-- Witness for `expiry_sweep_idempotent`: one expired user is added by the
first sweep run; the second run returns the state unchanged. -/
theorem expiry_sweep_idempotent_witness :
    add_expired_users ⟨some "!room:tchap", true⟩ ⟨[], [], []⟩ [("@a:t", 100)] 500 =
      .ok ⟨[("@a:t", true)], [],
        [⟨"@a:t", "@a:t", "!room:tchap", "leave"⟩]⟩ ∧
    add_expired_users ⟨some "!room:tchap", true⟩
        ⟨[("@a:t", true)], [], [⟨"@a:t", "@a:t", "!room:tchap", "leave"⟩]⟩
        [("@a:t", 100)] 500 =
      .ok ⟨[("@a:t", true)], [], [⟨"@a:t", "@a:t", "!room:tchap", "leave"⟩]⟩ :=
  ⟨by rfl,
   (expiry_sweep_idempotent ⟨some "!room:tchap", true⟩ ⟨[], [], []⟩ [("@a:t", 100)] 500
     ⟨[("@a:t", true)], [], [⟨"@a:t", "@a:t", "!room:tchap", "leave"⟩]⟩ (by rfl)).1⟩

/-- C5: delivering the same `hide_profile` account-data update twice in a
row yields the same persisted state as delivering it once, and the second
delivery is a pure no-op (no table write, no membership call) whenever the
state it sees is `VISIBLE` with `hide_profile = false` or `HIDDEN_MANUAL`
with `hide_profile = true`. -/
theorem update_idempotent_noop (cfg : RedListManagerConfig) (st0 : ModuleState)
    (u : UserId) (room1 room2 : Option String) (content : Option Bool)
    (st1 : ModuleState) (hcoh : CacheCoherent st0)
    (h1 : update_red_list_status cfg st0 u room1 ACCOUNT_DATA_TYPE content = .ok st1)
    (hcond : (get_user_status_txn st1.redList u = (false, false) ∧
        content.getD false = false) ∨
      (get_user_status_txn st1.redList u = (true, false) ∧
        content.getD false = true)) :
    ∃ st2, update_red_list_status cfg st1 u room2 ACCOUNT_DATA_TYPE content = .ok st2 ∧
      st2.redList = st1.redList ∧ st2.calls = st1.calls := by
  have hcoh1 : CacheCoherent st1 := coherent_update_red_list_status hcoh h1
  rw [update_red_list_status_run hcoh1]
  rcases hcond with ⟨hs, hd⟩ | ⟨hs, hd⟩ <;>
    rw [hs, hd, if_pos ⟨rfl, rfl⟩] <;>
    exact ⟨_, rfl, get_user_status_snd_redList st1 u, get_user_status_snd_calls st1 u⟩

/-- Witness for `update_idempotent_noop`: a fresh user hides their profile;
the second identical update leaves the table and call trace unchanged. -/
theorem update_idempotent_noop_witness :
    CacheCoherent ⟨[], [], []⟩ ∧
    update_red_list_status ⟨some "!room:tchap", true⟩ ⟨[], [], []⟩ "@a:t" none
        ACCOUNT_DATA_TYPE (some true) =
      .ok ⟨[("@a:t", false)], [], [⟨"@a:t", "@a:t", "!room:tchap", "leave"⟩]⟩ ∧
    ∃ st2, update_red_list_status ⟨some "!room:tchap", true⟩
        ⟨[("@a:t", false)], [], [⟨"@a:t", "@a:t", "!room:tchap", "leave"⟩]⟩ "@a:t" none
        ACCOUNT_DATA_TYPE (some true) = .ok st2 ∧
      st2.redList = ([("@a:t", false)] : RedListTable) ∧
      st2.calls = [⟨"@a:t", "@a:t", "!room:tchap", "leave"⟩] :=
  ⟨fun e he => absurd he (List.not_mem_nil e), by rfl,
   update_idempotent_noop ⟨some "!room:tchap", true⟩ ⟨[], [], []⟩ "@a:t" none none
     (some true) ⟨[("@a:t", false)], [], [⟨"@a:t", "@a:t", "!room:tchap", "leave"⟩]⟩
     (fun e he => absurd he (List.not_mem_nil e)) (by rfl)
     (Or.inr ⟨by decide, by decide⟩)⟩


/-- C2: every mutating operation invalidates the `_get_user_status` cache
entry of each affected user inside the same database unit of work as the
write (the `*_txn` state already has no cache entry for them), the
discovery-room step afterwards changes neither the table nor the cache,
and therefore the very next status read for an affected user is a fresh
read of the newly written table. -/
theorem mutations_invalidate_cache :
    (∀ cfg st u be st1 st', add_to_red_list_txn st u be = .ok st1 →
      add_to_red_list cfg st u be = .ok st' →
      cacheFind st1.cache u = none ∧ st'.redList = st1.redList ∧
      st'.cache = st1.cache ∧
      (get_user_status st' u).1 = get_user_status_txn st'.redList u) ∧
    (∀ cfg st u,
      cacheFind (remove_from_red_list_txn st u).cache u = none ∧
      (remove_from_red_list cfg st u).redList = (remove_from_red_list_txn st u).redList ∧
      (remove_from_red_list cfg st u).cache = (remove_from_red_list_txn st u).cache ∧
      (get_user_status (remove_from_red_list cfg st u) u).1 =
        get_user_status_txn (remove_from_red_list cfg st u).redList u) ∧
    (∀ st u st1, update_added_after_expiring st u = .ok st1 →
      cacheFind st1.cache u = none ∧
      (get_user_status st1 u).1 = get_user_status_txn st1.redList u) ∧
    (∀ cfg st validity now_ms s added st',
      add_expired_users_txn st validity now_ms = .ok (s, added) →
      add_expired_users cfg st validity now_ms = .ok st' →
      (∀ u ∈ added, cacheFind s.cache u = none) ∧
      st'.redList = s.redList ∧ st'.cache = s.cache ∧
      (∀ u ∈ added, (get_user_status st' u).1 = get_user_status_txn st'.redList u)) ∧
    (∀ cfg st validity now_ms,
      (∀ u ∈ (remove_renewed_users_txn st validity now_ms).2,
        cacheFind (remove_renewed_users_txn st validity now_ms).1.cache u = none) ∧
      (remove_renewed_users cfg st validity now_ms).redList =
        (remove_renewed_users_txn st validity now_ms).1.redList ∧
      (remove_renewed_users cfg st validity now_ms).cache =
        (remove_renewed_users_txn st validity now_ms).1.cache ∧
      (∀ u ∈ (remove_renewed_users_txn st validity now_ms).2,
        (get_user_status (remove_renewed_users cfg st validity now_ms) u).1 =
          get_user_status_txn (remove_renewed_users cfg st validity now_ms).redList u)) := by
  refine ⟨?_, ?_, ?_, ?_, ?_⟩
  · intro cfg st u be st1 st' htxn hfull
    obtain ⟨hnone, rfl⟩ := add_to_red_list_txn_ok_iff.mp htxn
    obtain ⟨st0, htxn0, rfl⟩ := add_to_red_list_ok_iff.mp hfull
    rw [htxn] at htxn0
    obtain rfl := Except.ok.inj htxn0
    have hcf : cacheFind (invalidate st.cache u) u = none := by
      rw [cacheFind_invalidate]
      simp
    refine ⟨hcf, maybe_change_membership_redList .., maybe_change_membership_cache .., ?_⟩
    refine get_user_status_of_cacheFind_none ?_
    rw [maybe_change_membership_cache]
    exact hcf
  · intro cfg st u
    have hcf : cacheFind (remove_from_red_list_txn st u).cache u = none := by
      show cacheFind (invalidate st.cache u) u = none
      rw [cacheFind_invalidate]
      simp
    refine ⟨hcf, maybe_change_membership_redList .., maybe_change_membership_cache .., ?_⟩
    refine get_user_status_of_cacheFind_none ?_
    show cacheFind (maybe_change_membership_in_discovery_room cfg
      (remove_from_red_list_txn st u) u "join").cache u = none
    rw [maybe_change_membership_cache]
    exact hcf
  · intro st u st1 hok
    obtain ⟨hl, rfl⟩ := update_added_after_expiring_ok_iff.mp hok
    have hcf : cacheFind (invalidate st.cache u) u = none := by
      rw [cacheFind_invalidate]
      simp
    exact ⟨hcf, get_user_status_of_cacheFind_none hcf⟩
  · intro cfg st validity now_ms s added st' htxn hfull
    obtain ⟨hadded, hf⟩ := add_expired_users_txn_ok_iff.mp htxn
    obtain ⟨-, -, -, -, hcmem, -⟩ := foldl_addExpiredStep_ok hf
    unfold add_expired_users at hfull
    rw [htxn] at hfull
    obtain rfl := Except.ok.inj hfull
    have hcnone : ∀ u ∈ added, cacheFind s.cache u = none := by
      intro u hu
      subst hadded
      exact hcmem u hu
    refine ⟨hcnone, foldl_membership_redList .., foldl_membership_cache .., ?_⟩
    intro u hu
    refine get_user_status_of_cacheFind_none ?_
    rw [foldl_membership_cache]
    exact hcnone u hu
  · intro cfg st validity now_ms
    have hcnone : ∀ u ∈ (remove_renewed_users_txn st validity now_ms).2,
        cacheFind (remove_renewed_users_txn st validity now_ms).1.cache u = none := by
      intro u hu
      show cacheFind ((renewedUsers st.redList validity now_ms).foldl invalidate st.cache)
        u = none
      exact cacheFind_foldl_invalidate_mem hu
    have hrl : (remove_renewed_users cfg st validity now_ms).redList =
        (remove_renewed_users_txn st validity now_ms).1.redList := by
      rw [remove_renewed_users_def]
      exact foldl_membership_redList ..
    have hca : (remove_renewed_users cfg st validity now_ms).cache =
        (remove_renewed_users_txn st validity now_ms).1.cache := by
      rw [remove_renewed_users_def]
      exact foldl_membership_cache ..
    refine ⟨hcnone, hrl, hca, ?_⟩
    intro u hu
    refine get_user_status_of_cacheFind_none ?_
    rw [hca]
    exact hcnone u hu

/-- Witness for `mutations_invalidate_cache`: each of the five mutating
operations, run on a small concrete state whose cache holds a stale entry
for the affected user, leaves no cache entry for that user and reads back
the fresh table state. -/
theorem mutations_invalidate_cache_witness :
    (cacheFind (⟨[("@a:t", false)], [], []⟩ : ModuleState).cache "@a:t" = none ∧
      (add_to_red_list ⟨some "!r", false⟩
          ⟨[], [("@a:t", (false, false))], []⟩ "@a:t" false).toOption.isSome = true) ∧
    cacheFind (remove_from_red_list_txn
      ⟨[("@a:t", false)], [("@a:t", (true, false))], []⟩ "@a:t").cache "@a:t" = none ∧
    cacheFind (⟨[("@a:t", false)], [], []⟩ : ModuleState).cache "@a:t" = none ∧
    (∀ u ∈ ["@a:t"], cacheFind
      ([] : List (UserId × (Bool × Bool))) u = none) ∧
    (∀ u ∈ (remove_renewed_users_txn
        ⟨[("@a:t", true)], [("@a:t", (true, true))], []⟩ [("@a:t", 900)] 500).2,
      cacheFind (remove_renewed_users_txn
        ⟨[("@a:t", true)], [("@a:t", (true, true))], []⟩ [("@a:t", 900)] 500).1.cache
        u = none) := by
  have h1 := mutations_invalidate_cache.1 ⟨some "!r", false⟩
    ⟨[], [("@a:t", (false, false))], []⟩ "@a:t" false
    ⟨[("@a:t", false)], [], []⟩
    ⟨[("@a:t", false)], [], [⟨"@a:t", "@a:t", "!r", "leave"⟩]⟩ (by rfl) (by rfl)
  have h2 := mutations_invalidate_cache.2.1 ⟨some "!r", false⟩
    ⟨[("@a:t", false)], [("@a:t", (true, false))], []⟩ "@a:t"
  have h3 := mutations_invalidate_cache.2.2.1
    ⟨[("@a:t", true)], [("@a:t", (true, true))], []⟩ "@a:t"
    ⟨[("@a:t", false)], [], []⟩ (by rfl)
  have h4 := mutations_invalidate_cache.2.2.2.1 ⟨some "!r", true⟩
    ⟨[], [("@a:t", (false, false))], []⟩ [("@a:t", 100)] 500
    ⟨[("@a:t", true)], [], []⟩ ["@a:t"]
    ⟨[("@a:t", true)], [], [⟨"@a:t", "@a:t", "!r", "leave"⟩]⟩ (by rfl) (by rfl)
  have h5 := mutations_invalidate_cache.2.2.2.2 ⟨some "!r", true⟩
    ⟨[("@a:t", true)], [("@a:t", (true, true))], []⟩ [("@a:t", 900)] 500
  exact ⟨⟨h1.1, by rfl⟩, h2.1, h3.1, h4.1, h5.1⟩

/-- C9: with a discovery room configured, `_add_to_red_list` appends
exactly one "leave" call and `_remove_from_red_list` exactly one "join"
call, in each case to the state the transaction (write plus cache
invalidation) already produced; with no discovery room configured, none of
the operations — including both sweeps — ever issues a membership call. -/
theorem discovery_room_membership_calls :
    (∀ cfg (room : String) st u be st1, cfg.discovery_room = some room →
      add_to_red_list_txn st u be = .ok st1 →
      add_to_red_list cfg st u be =
        .ok { st1 with calls := st1.calls ++ [⟨u, u, room, "leave"⟩] }) ∧
    (∀ cfg (room : String) st u, cfg.discovery_room = some room →
      remove_from_red_list cfg st u =
        { remove_from_red_list_txn st u with
            calls := (remove_from_red_list_txn st u).calls ++ [⟨u, u, room, "join"⟩] }) ∧
    (∀ cfg st u be st', cfg.discovery_room = none →
      add_to_red_list cfg st u be = .ok st' → st'.calls = st.calls) ∧
    (∀ cfg st u, cfg.discovery_room = none →
      (remove_from_red_list cfg st u).calls = st.calls) ∧
    (∀ cfg st validity now_ms st', cfg.discovery_room = none →
      add_expired_users cfg st validity now_ms = .ok st' → st'.calls = st.calls) ∧
    (∀ cfg st validity now_ms, cfg.discovery_room = none →
      (remove_renewed_users cfg st validity now_ms).calls = st.calls) ∧
    (∀ cfg (room : String) st validity now_ms s added st', cfg.discovery_room = some room →
      add_expired_users_txn st validity now_ms = .ok (s, added) →
      add_expired_users cfg st validity now_ms = .ok st' →
      st'.calls = st.calls ++ added.map (fun u => ⟨u, u, room, "leave"⟩)) := by
  refine ⟨?_, ?_, ?_, ?_, ?_, ?_, ?_⟩
  · intro cfg room st u be st1 hroom htxn
    unfold add_to_red_list
    rw [htxn]
    show Except.ok (maybe_change_membership_in_discovery_room cfg st1 u "leave") = _
    rw [maybe_change_membership_some hroom]
  · intro cfg room st u hroom
    unfold remove_from_red_list
    rw [maybe_change_membership_some hroom]
  · intro cfg st u be st' hroom hfull
    obtain ⟨st0, htxn, rfl⟩ := add_to_red_list_ok_iff.mp hfull
    obtain ⟨-, rfl⟩ := add_to_red_list_txn_ok_iff.mp htxn
    rw [maybe_change_membership_none hroom]
  · intro cfg st u hroom
    unfold remove_from_red_list
    rw [maybe_change_membership_none hroom]
    rfl
  · intro cfg st validity now_ms st' hroom hfull
    unfold add_expired_users at hfull
    cases htxn : add_expired_users_txn st validity now_ms with
    | error e =>
        rw [htxn] at hfull
        cases hfull
    | ok p =>
        obtain ⟨s, added⟩ := p
        rw [htxn] at hfull
        obtain rfl := Except.ok.inj hfull
        rw [foldl_membership_none hroom]
        obtain ⟨hcalls, -, -, -, -, -⟩ :=
          foldl_addExpiredStep_ok (add_expired_users_txn_ok_iff.mp htxn).2
        rw [hcalls]
  · intro cfg st validity now_ms hroom
    rw [remove_renewed_users_def, foldl_membership_none hroom]
    rfl
  · intro cfg room st validity now_ms s added st' hroom htxn hfull
    unfold add_expired_users at hfull
    rw [htxn] at hfull
    obtain rfl := Except.ok.inj hfull
    rw [foldl_membership_some hroom]
    obtain ⟨hcalls, -, -, -, -, -⟩ :=
      foldl_addExpiredStep_ok (add_expired_users_txn_ok_iff.mp htxn).2
    rw [hcalls]

/-- Witness for `discovery_room_membership_calls`: concrete hide/unhide and
sweep runs with and without a configured discovery room. -/
theorem discovery_room_membership_calls_witness :
    add_to_red_list ⟨some "!r", false⟩ ⟨[], [], []⟩ "@a:t" false =
      .ok ⟨[("@a:t", false)], [], [⟨"@a:t", "@a:t", "!r", "leave"⟩]⟩ ∧
    remove_from_red_list ⟨some "!r", false⟩ ⟨[("@a:t", false)], [], []⟩ "@a:t" =
      ⟨[], [], [⟨"@a:t", "@a:t", "!r", "join"⟩]⟩ ∧
    (⟨[], [], []⟩ : ModuleState).calls = ([] : List MembershipCall) ∧
    (remove_from_red_list ⟨none, false⟩ ⟨[("@a:t", false)], [], []⟩ "@a:t").calls =
      ([] : List MembershipCall) ∧
    ((⟨[("@a:t", true)], [], []⟩ : ModuleState).calls = ([] : List MembershipCall)) ∧
    (remove_renewed_users ⟨none, true⟩ ⟨[("@a:t", true)], [], []⟩
      [("@a:t", 900)] 500).calls = ([] : List MembershipCall) ∧
    ((⟨[("@a:t", true)], [], [⟨"@a:t", "@a:t", "!r", "leave"⟩]⟩ : ModuleState).calls =
      ([] : List MembershipCall) ++
        ["@a:t"].map (fun u => (⟨u, u, "!r", "leave"⟩ : MembershipCall))) := by
  refine ⟨?_, ?_, ?_, ?_, ?_, ?_, ?_⟩
  · have := discovery_room_membership_calls.1 ⟨some "!r", false⟩ "!r" ⟨[], [], []⟩
      "@a:t" false ⟨[("@a:t", false)], [], []⟩ rfl (by rfl)
    rw [this]
    rfl
  · have := discovery_room_membership_calls.2.1 ⟨some "!r", false⟩ "!r"
      ⟨[("@a:t", false)], [], []⟩ "@a:t" rfl
    rw [this]
    rfl
  · exact discovery_room_membership_calls.2.2.1 ⟨none, false⟩ ⟨[], [], []⟩ "@a:t" false
      ⟨[("@a:t", false)], [], []⟩ rfl (by rfl)
  · exact discovery_room_membership_calls.2.2.2.1 ⟨none, false⟩
      ⟨[("@a:t", false)], [], []⟩ "@a:t" rfl
  · exact discovery_room_membership_calls.2.2.2.2.1 ⟨none, true⟩ ⟨[], [], []⟩
      [("@a:t", 100)] 500 ⟨[("@a:t", true)], [], []⟩ rfl (by rfl)
  · exact discovery_room_membership_calls.2.2.2.2.2.1 ⟨none, true⟩
      ⟨[("@a:t", true)], [], []⟩ [("@a:t", 900)] 500 rfl
  · exact discovery_room_membership_calls.2.2.2.2.2.2 ⟨some "!r", true⟩ "!r"
      ⟨[], [], []⟩ [("@a:t", 100)] 500 ⟨[("@a:t", true)], [], []⟩ ["@a:t"]
      ⟨[("@a:t", true)], [], [⟨"@a:t", "@a:t", "!r", "leave"⟩]⟩ rfl (by rfl) (by rfl)

end TchapRedList
